import Mathlib

set_option maxHeartbeats 1000000
set_option maxRecDepth 4000

/-!
Shallow embedding of the geospatial trend aggregation engine of the
dashboard repository (src/js/map.js: `createSpatialIndex`,
`calculateCommunityBounds`, `isPointInBounds`, `getCrimesInCommunityBounds`,
`calculateSafetyTrends`, `getPolygonCoordinates`, `pointInPolygon`,
`isPointOnLineSegment`, `getSafetyTrendsForTimeRange`).

JavaScript numbers are modelled as rationals (ℚ), JS objects keyed by
strings as insertion-ordered association lists with JS-assignment update
semantics, and optional / falsy fields as `Option`.  The host `Date`
builtins (`new Date(s)`, the dynamic clock and its `setMonth` arithmetic)
are abstracted as an environment record passed to the aggregator; the
fixed analysis date `new Date('2025-06-01')` has full year 2025, which is
inlined where the source calls `now.getFullYear()`.
-/

/-- Truthiness filter for JS strings: `undefined`, `null` and `''` are falsy. -/
def jsTruthyStr : Option String → Option String
  | some s => if s = "" then none else some s
  | none => none

/-- JS `a || b` for an optional string `a` with a string default `b`. -/
def jsOrStr (a : Option String) (b : String) : String :=
  match jsTruthyStr a with
  | some s => s
  | none => b

/-- JS object property read `o[k]` on a string-keyed object. -/
def objGet {α : Type} (o : List (String × α)) (k : String) : Option α :=
  (o.find? (fun p => p.1 == k)).map Prod.snd

/-- Whether a JS object has a key. -/
def objHasKey {α : Type} (o : List (String × α)) (k : String) : Bool :=
  o.any (fun p => p.1 == k)

/-- JS object property write `o[k] = v`: replaces the key's entry in place
when present (JS objects have unique keys), appends otherwise
(insertion-order semantics of JS objects). -/
def objSet {α : Type} (o : List (String × α)) (k : String) (v : α) : List (String × α) :=
  match o with
  | [] => [(k, v)]
  | p :: rest => if p.1 == k then (k, v) :: rest else p :: objSet rest k v

/-- JS `Math.round`: nearest integer, ties toward positive infinity. -/
def jsRound (q : ℚ) : ℤ := ⌊q + 1/2⌋

/-- Check that the hay list starts with the needle list. -/
def leadsWith : List Char → List Char → Bool
  | [], _ => true
  | _ :: _, [] => false
  | a :: as, b :: bs => a == b && leadsWith as bs

/-- Check that the needle list occurs contiguously inside the hay list. -/
def occursIn (needle : List Char) : List Char → Bool
  | [] => leadsWith needle []
  | c :: rest => leadsWith needle (c :: rest) || occursIn needle rest

/-- JS `s.includes(sub)`: contiguous substring containment. -/
def jsIncludes (s sub : String) : Bool := occursIn sub.data s.data

/-- Insert a string into a sorted list (ascending). -/
def insertAsc (s : String) : List String → List String
  | [] => [s]
  | t :: rest => if s < t then s :: t :: rest else t :: insertAsc s rest

/-- JS `Array.prototype.sort()` on a list of distinct strings (ascending). -/
def sortStrings (l : List String) : List String := l.foldr insertAsc []

/-- Inclusive integer range `lo..hi` as iterated by `for (x = lo; x <= hi; x++)`. -/
def intRange (lo hi : ℤ) : List ℤ :=
  (List.range (hi + 1 - lo).toNat).map (fun i : ℕ => lo + (i : ℤ))

/-- Result of a successful JS `new Date(...)`: its `valueOf()` in epoch
milliseconds and its `getFullYear()`. -/
structure JSDate where
  millis : ℚ
  fullYear : ℤ
deriving DecidableEq

/-- Host environment abstracted from the JS runtime: the `Date` string
parser (`none` models an invalid date, i.e. `isNaN(d.getTime())`), the
dynamic clock `new Date()` and the two `setMonth`-derived instants used by
the `6months` window. -/
structure JsEnv where
  parseDate : String → Option JSDate
  dynamicNow : JSDate
  sixMonthsAgo : JSDate
  twelveMonthsAgo : JSDate

/-- GeoJSON geometry as consumed by `getPolygonCoordinates`: coordinates
are arrays of numbers of arbitrary length, rings are arrays of coordinates. -/
inductive Geometry where
  | polygon (coordinates : List (List (List ℚ)))
  | multiPolygon (coordinates : List (List (List (List ℚ))))
  | geometryCollection (geometries : List Geometry)
  | unsupported (typeName : String)

/-- Properties bag of a neighborhood feature (fields used by the engine). -/
structure CommunityProps where
  MAPNAME : Option String
  name : Option String

/-- A neighborhood boundary feature. -/
structure Community where
  id : Option String
  properties : Option CommunityProps
  geometry : Option Geometry

/-- Neighborhood collection: `features` may be missing (malformed input). -/
structure CommunityCollection where
  features : Option (List Community)

/-- Point geometry of a crime record: a coordinate array `[lon, lat, ...]`. -/
structure CrimeGeometry where
  coordinates : Option (List ℚ)
deriving DecidableEq

/-- Properties of a crime record used by the engine.  `dispatch_date_time`
is the timestamp string (`none` models a missing field; `some ""` the empty
string — both are falsy). -/
structure CrimeProps where
  dispatch_date_time : Option String
  text_general_code : Option String
deriving DecidableEq

/-- A crime incident record. -/
structure Crime where
  geometry : Option CrimeGeometry
  properties : CrimeProps
deriving DecidableEq

/-- Crime dataset: `features` may be missing (malformed input). -/
structure CrimeData where
  features : Option (List Crime)

/-- Bounding box of a community, as computed by `calculateCommunityBounds`. -/
structure Bounds where
  minLat : ℚ
  maxLat : ℚ
  minLon : ℚ
  maxLon : ℚ
deriving DecidableEq

/-- Per-time-window sub-record stored in `timeRanges`. -/
structure TimeRangeResult where
  recent : ℕ
  previous : ℕ
  changePercent : ℚ
deriving DecidableEq

/-- Trend record produced per neighborhood by `calculateSafetyTrends`. -/
structure TrendRecord where
  communityId : String
  communityName : String
  recentCount : ℕ
  previousCount : ℕ
  changePercent : ℚ
  crimeTypes : List (String × ℕ)
  timeRanges : List (String × TimeRangeResult)
deriving DecidableEq

/-- Extract the `[lat, lon]` vertices of one outer ring: coordinates with
fewer than two entries are skipped, the first two entries are read as
`[lon, lat]` and swapped. -/
def extractRing (outerRing : List (List ℚ)) : List (ℚ × ℚ) :=
  outerRing.filterMap (fun coord =>
    match coord with
    | c0 :: c1 :: _ => some (c1, c0)
    | _ => none)

mutual

/-- Embeds `getPolygonCoordinates` on a non-null geometry: outer rings
only, `GeometryCollection` flattened recursively, unsupported types yield
an empty list (a console warning in the source). -/
def getPolygonCoordinatesGeom : Geometry → List (ℚ × ℚ)
  | .polygon coords =>
    match coords with
    | [] => []
    | outerRing :: _ => extractRing outerRing
  | .multiPolygon coords => multiOuterRings coords
  | .geometryCollection gs => collectSubGeoms gs
  | .unsupported _ => []

/-- Concatenate the outer ring of each polygon of a MultiPolygon. -/
def multiOuterRings : List (List (List (List ℚ))) → List (ℚ × ℚ)
  | [] => []
  | poly :: rest =>
    (match poly with
     | [] => []
     | outerRing :: _ => extractRing outerRing) ++ multiOuterRings rest

/-- Concatenate the extractions of the sub-geometries of a collection. -/
def collectSubGeoms : List Geometry → List (ℚ × ℚ)
  | [] => []
  | g :: rest => getPolygonCoordinatesGeom g ++ collectSubGeoms rest

end

/-- Embeds `getPolygonCoordinates(geometry)`: `null` geometry yields `[]`. -/
def getPolygonCoordinates : Option Geometry → List (ℚ × ℚ)
  | none => []
  | some g => getPolygonCoordinatesGeom g

/-- Embeds `isPointOnLineSegment(px, py, x1, y1, x2, y2)`: a bounding-box
check with absolute tolerance `0.00001`, then a cross-product degeneracy
test with the same tolerance. -/
def isPointOnLineSegment (px py x1 y1 x2 y2 : ℚ) : Bool :=
  if px < min x1 x2 - 1/100000 || px > max x1 x2 + 1/100000 ||
     py < min y1 y2 - 1/100000 || py > max y1 y2 + 1/100000 then false
  else |(px - x1) * (y2 - y1) - (py - y1) * (x2 - x1)| < 1/100000

/-- The edge list iterated by `pointInPolygon`: pairs `(polygon[i], polygon[j])`
with `j = i - 1` wrapping to the last vertex at `i = 0`. -/
def edgePairs (polygon : List (ℚ × ℚ)) : List ((ℚ × ℚ) × (ℚ × ℚ)) :=
  match polygon.getLast? with
  | none => []
  | some last => polygon.zip (last :: polygon.dropLast)

/-- The boundary test of one loop iteration of `pointInPolygon`
(`isPointOnLineSegment(lat, lon, yi, xi, yj, xj)`). -/
def onSegPair (lat lon : ℚ) (pr : (ℚ × ℚ) × (ℚ × ℚ)) : Bool :=
  isPointOnLineSegment lat lon pr.1.1 pr.1.2 pr.2.1 pr.2.2

/-- The ray-casting crossing test of one loop iteration of `pointInPolygon`. -/
def rayCrossPair (lat lon : ℚ) (pr : (ℚ × ℚ) × (ℚ × ℚ)) : Bool :=
  (decide (pr.1.1 > lat) != decide (pr.2.1 > lat)) &&
    decide (lon < (pr.2.2 - pr.1.2) * (lat - pr.1.1) / (pr.2.1 - pr.1.1) + pr.1.2)

/-- The edge loop of `pointInPolygon`: early `return true` on a boundary
hit, otherwise toggle `inside` on each ray crossing. -/
def pipGo (lat lon : ℚ) : List ((ℚ × ℚ) × (ℚ × ℚ)) → Bool → Bool
  | [], inside => inside
  | pr :: rest, inside =>
    if onSegPair lat lon pr then true
    else pipGo lat lon rest (if rayCrossPair lat lon pr then !inside else inside)

/-- Embeds `pointInPolygon(lat, lon, polygon)`: even-odd ray casting with a
boundary-tolerance early exit; polygons with fewer than 3 vertices are
never containing. -/
def pointInPolygon (lat lon : ℚ) (polygon : List (ℚ × ℚ)) : Bool :=
  if polygon.length < 3 then false
  else pipGo lat lon (edgePairs polygon) false

/-- Grid cell of a crime for `createSpatialIndex`: `none` when the
coordinate array is missing or shorter than two entries. -/
def crimeGridKey (gridSize : ℚ) (crime : Crime) : Option (ℤ × ℤ) :=
  match crime.geometry with
  | none => none
  | some g =>
    match g.coordinates with
    | none => none
    | some coords =>
      match coords with
      | lon :: lat :: _ => some (⌊lon / gridSize⌋, ⌊lat / gridSize⌋)
      | _ => none

/-- Embeds `createSpatialIndex(crimeData, gridSize)`.  The JS index is an
object mapping the cell key string to the insertion-ordered array of
crimes of that cell; it is modelled extensionally as the lookup function,
whose value at a key is the input order filtered to that cell (an absent
key reads as the empty list, matching `if (spatialIndex[key])`). -/
def createSpatialIndex (crimeData : Option CrimeData) (gridSize : ℚ) :
    ℤ × ℤ → List Crime :=
  fun key =>
    match crimeData with
    | none => []
    | some cd =>
      match cd.features with
      | none => []
      | some fs => fs.filter (fun crime => crimeGridKey gridSize crime == some key)

/-- Embeds `calculateCommunityBounds(community)`: `null` for degenerate
boundaries, otherwise the min/max fold over the extracted vertices (the
source folds from `±Infinity`; folding from the first vertex is the same
on a nonempty list). -/
def calculateCommunityBounds (community : Community) : Option Bounds :=
  let coords := getPolygonCoordinates community.geometry
  if coords.length < 3 then none
  else
    match coords with
    | [] => none
    | c :: _ =>
      some { minLat := coords.foldl (fun m p => min m p.1) c.1
             maxLat := coords.foldl (fun m p => max m p.1) c.1
             minLon := coords.foldl (fun m p => min m p.2) c.2
             maxLon := coords.foldl (fun m p => max m p.2) c.2 }

/-- Embeds `isPointInBounds(lat, lon, bounds)`. -/
def isPointInBounds (lat lon : ℚ) (bounds : Bounds) : Bool :=
  decide (lat ≥ bounds.minLat) && decide (lat ≤ bounds.maxLat) &&
    decide (lon ≥ bounds.minLon) && decide (lon ≤ bounds.maxLon)

/-- Embeds `getCrimesInCommunityBounds(community, spatialIndex, gridSize)`
on the cache-miss path: the bounds cache stores exactly
`calculateCommunityBounds(community)` for the community's identifier, so a
consistent cache hit returns the same value that is recomputed here. -/
def getCrimesInCommunityBounds (community : Community)
    (spatialIndex : ℤ × ℤ → List Crime) (gridSize : ℚ) : List Crime :=
  match calculateCommunityBounds community with
  | none => []
  | some bounds =>
    let startX := ⌊bounds.minLon / gridSize⌋
    let endX := ⌊bounds.maxLon / gridSize⌋
    let startY := ⌊bounds.minLat / gridSize⌋
    let endY := ⌊bounds.maxLat / gridSize⌋
    (intRange startX endX).flatMap (fun x =>
      (intRange startY endY).flatMap (fun y =>
        (spatialIndex (x, y)).filter (fun crime =>
          match crime.geometry with
          | some g =>
            match g.coordinates with
            | some (lon :: lat :: _) => isPointInBounds lat lon bounds
            | _ => false
          | none => false)))

/-- Embeds the `getPeriodType(crimeDate)` closure of
`calculateSafetyTrends`.  The constant `2025` in the `2years` branch is
`new Date('2025-06-01').getFullYear()`. -/
def getPeriodType (env : JsEnv) (timeRange : String) (crimeDate : JSDate) : String :=
  if timeRange == "6months" then
    if decide (crimeDate.millis ≥ env.sixMonthsAgo.millis) &&
       decide (crimeDate.millis ≤ env.dynamicNow.millis) then "recent"
    else if decide (crimeDate.millis ≥ env.twelveMonthsAgo.millis) &&
            decide (crimeDate.millis < env.sixMonthsAgo.millis) then "previous"
    else "other"
  else if timeRange == "1year" then
    if crimeDate.fullYear == 2025 then "recent"
    else if crimeDate.fullYear == 2024 then "previous"
    else "other"
  else if timeRange == "2years" then
    if crimeDate.fullYear == 2025 || crimeDate.fullYear == 2025 - 1 then "recent"
    else if crimeDate.fullYear == 2025 - 2 || crimeDate.fullYear == 2025 - 3 then "previous"
    else "other"
  else "other"

/-- The four excluded specific types of the `Violent Crime` sentinel. -/
def otherSpecificTypes : List String :=
  ["Burglary Residential", "Motor Vehicle Theft", "Theft from Vehicle",
   "Vandalism/Criminal Mischief"]

/-- Embeds the `isCrimeTypeSelected(crime)` closure of
`calculateSafetyTrends`: an empty or absent selection matches everything;
otherwise the sentinel `Violent Crime` matches labels containing none of
the four excluded substrings, and any other selection entry matches by
substring containment; the selection is a disjunction. -/
def isCrimeTypeSelected (selectedCrimeTypes : Option (List String)) (crime : Crime) : Bool :=
  match selectedCrimeTypes with
  | none => true
  | some l =>
    if l.isEmpty then true
    else
      let crimeDescription := jsOrStr crime.properties.text_general_code ""
      l.any (fun t =>
        if t == "Violent Crime" then
          !(otherSpecificTypes.any (fun o => jsIncludes crimeDescription o))
        else jsIncludes crimeDescription t)

/-- Period classification of one crime record inside
`calculateSafetyTrends`: `none` when the timestamp is falsy (counted
missing) or unparseable (counted as a parse error); those records join
neither period bucket. -/
def crimePeriod (env : JsEnv) (timeRange : String) (crime : Crime) : Option String :=
  match jsTruthyStr crime.properties.dispatch_date_time with
  | none => none
  | some s =>
    match env.parseDate s with
    | none => none
    | some d => some (getPeriodType env timeRange d)

/-- Community display name: `properties?.MAPNAME || properties?.name ||
'Unknown Community'`. -/
def communityNameOf (c : Community) : String :=
  jsOrStr (c.properties.bind (fun p => p.MAPNAME))
    (jsOrStr (c.properties.bind (fun p => p.name)) "Unknown Community")

/-- Community identifier: `community.id || communityName`. -/
def communityIdOf (c : Community) : String :=
  jsOrStr c.id (communityNameOf c)

/-- The point-in-polygon refinement filter applied to candidate crimes. -/
def crimeInPoly (coords : List (ℚ × ℚ)) (crime : Crime) : Bool :=
  match crime.geometry with
  | none => false
  | some g =>
    match g.coordinates with
    | some (lon :: lat :: _) => pointInPolygon lat lon coords
    | _ => false

/-- The zero-valued record written for a boundary that extracts to fewer
than 3 vertices (its `timeRanges` always carries the literal `'6months'`
key, as in the source). -/
def degenerateTrendRecord (c : Community) : TrendRecord :=
  { communityId := communityIdOf c
    communityName := communityNameOf c
    recentCount := 0
    previousCount := 0
    changePercent := 0
    crimeTypes := []
    timeRanges := [("6months", { recent := 0, previous := 0, changePercent := 0 })] }

/-- The per-community body of the `communities.features.forEach` loop of
`calculateSafetyTrends`, updating the accumulated `trends` object. -/
def processCommunity (recentIdx previousIdx : ℤ × ℤ → List Crime)
    (timeRange : String) (trends : List (String × TrendRecord))
    (community : Community) : List (String × TrendRecord) :=
  let communityId := communityIdOf community
  let communityCoords := getPolygonCoordinates community.geometry
  if communityCoords.length < 3 then
    objSet trends communityId (degenerateTrendRecord community)
  else
    let candidateRecentCrimes := getCrimesInCommunityBounds community recentIdx (1/100)
    let candidatePreviousCrimes := getCrimesInCommunityBounds community previousIdx (1/100)
    let communityRecentCrimes := candidateRecentCrimes.filter (crimeInPoly communityCoords)
    let communityPreviousCrimes := candidatePreviousCrimes.filter (crimeInPoly communityCoords)
    let recentCount := communityRecentCrimes.length
    let previousCount := communityPreviousCrimes.length
    let changePercent : ℚ :=
      if previousCount > 0 then
        (((recentCount : ℚ) - (previousCount : ℚ)) / (previousCount : ℚ)) * 100
      else 0
    let crimeTypes := communityRecentCrimes.foldl (fun acc crime =>
      match jsTruthyStr crime.properties.text_general_code with
      | some t => objSet acc t ((objGet acc t).getD 0 + 1)
      | none => acc) ([] : List (String × ℕ))
    let sortedCrimeTypes := (sortStrings (crimeTypes.map Prod.fst)).map
      (fun t => (t, (objGet crimeTypes t).getD 0))
    let timeRangeResult : TimeRangeResult :=
      { recent := recentCount
        previous := previousCount
        changePercent := ((min 100 (jsRound changePercent) : ℤ) : ℚ) }
    let existingTimeRanges :=
      match objGet trends communityId with
      | some prev => prev.timeRanges
      | none => []
    objSet trends communityId
      { communityId := communityId
        communityName := communityNameOf community
        recentCount := recentCount
        previousCount := previousCount
        changePercent := ((min 100 (jsRound changePercent) : ℤ) : ℚ)
        crimeTypes := sortedCrimeTypes
        timeRanges := objSet existingTimeRanges timeRange timeRangeResult }

/-- Embeds `calculateSafetyTrends(communities, crimeData, timeRange,
selectedCrimeTypes)`: input validation returning an empty mapping on
malformed input, period/category bucketing, one spatial index per bucket,
then the per-community fold.  The module-scope caches (`communityBounds`,
`results`) are write-through side effects not read back by this
computation and are omitted. -/
def calculateSafetyTrends (env : JsEnv) (communities : Option CommunityCollection)
    (crimeData : Option CrimeData) (timeRange : String)
    (selectedCrimeTypes : Option (List String)) : List (String × TrendRecord) :=
  match communities with
  | none => []
  | some comm =>
    match comm.features with
    | none => []
    | some communityFeatures =>
      match crimeData with
      | none => []
      | some cd =>
        match cd.features with
        | none => []
        | some crimeFeatures =>
          if crimeFeatures.length = 0 then []
          else
            let recentPeriodCrimes := crimeFeatures.filter (fun c =>
              isCrimeTypeSelected selectedCrimeTypes c &&
                (crimePeriod env timeRange c == some "recent"))
            let previousPeriodCrimes := crimeFeatures.filter (fun c =>
              isCrimeTypeSelected selectedCrimeTypes c &&
                (crimePeriod env timeRange c == some "previous"))
            let recentSpatialIndex :=
              createSpatialIndex (some { features := some recentPeriodCrimes }) (1/100)
            let previousSpatialIndex :=
              createSpatialIndex (some { features := some previousPeriodCrimes }) (1/100)
            communityFeatures.foldl
              (processCommunity recentSpatialIndex previousSpatialIndex timeRange) []

/-- Embeds `getSafetyTrendsForTimeRange(trends, timeRange)`: for each
neighborhood, when the window's sub-record exists the counts are taken
from it and the percent change is recomputed raw (no rounding, no cap);
otherwise the record is returned unchanged. -/
def getSafetyTrendsForTimeRange (trends : List (String × TrendRecord))
    (timeRange : String) : List (String × TrendRecord) :=
  trends.foldl (fun result p =>
    match objGet p.2.timeRanges timeRange with
    | some timeRangeData =>
      let changePercent : ℚ :=
        if timeRangeData.previous > 0 then
          (((timeRangeData.recent : ℚ) - (timeRangeData.previous : ℚ)) /
            (timeRangeData.previous : ℚ)) * 100
        else 0
      objSet result p.1
        { p.2 with changePercent := changePercent
                   recentCount := timeRangeData.recent
                   previousCount := timeRangeData.previous }
    | none => objSet result p.1 p.2) []

/-! ### Object-semantics lemmas -/

theorem objGet_cons {α : Type} (p : String × α) (rest : List (String × α)) (k : String) :
    objGet (p :: rest) k = if p.1 == k then some p.2 else objGet rest k := by
  cases hp : (p.1 == k) with
  | false => simp [objGet, List.find?_cons_of_neg, hp]
  | true => simp [objGet, List.find?_cons_of_pos, hp]

theorem objGet_objSet_self {α : Type} (o : List (String × α)) (k : String) (v : α) :
    objGet (objSet o k v) k = some v := by
  induction o with
  | nil => simp [objSet, objGet_cons]
  | cons p rest ih =>
    by_cases hp : (p.1 == k) = true
    · simp [objSet, hp, objGet_cons]
    · simp only [objSet, hp]
      rw [if_neg (by simp [hp])]
      rw [objGet_cons, if_neg (by simp_all), ih]

theorem objGet_objSet_other {α : Type} (o : List (String × α)) (k k' : String) (v : α)
    (hk : k' ≠ k) : objGet (objSet o k v) k' = objGet o k' := by
  have hkk : ¬(k = k') := fun h => hk h.symm
  induction o with
  | nil => simp [objSet, objGet_cons, objGet, hkk]
  | cons p rest ih =>
    by_cases hp : (p.1 == k) = true
    · have hpk : p.1 = k := by simpa using hp
      rw [objSet, if_pos hp, objGet_cons, objGet_cons]
      rw [if_neg (by simp [hkk]), if_neg (by simp [hpk, hkk])]
    · rw [objSet, if_neg hp, objGet_cons, objGet_cons, ih]

theorem objGet_mem {α : Type} {o : List (String × α)} {k : String} {v : α}
    (h : objGet o k = some v) : (k, v) ∈ o := by
  induction o with
  | nil => simp [objGet] at h
  | cons p rest ih =>
    rw [objGet_cons] at h
    by_cases hp : (p.1 == k) = true
    · rw [if_pos hp] at h
      have hpk : p.1 = k := by simpa using hp
      have : p = (k, v) := by
        cases p with
        | mk a b => simp at hpk h ⊢; exact ⟨hpk, h⟩
      simp [this]
    · rw [if_neg hp] at h
      exact List.mem_cons_of_mem _ (ih h)

theorem objSet_forall {α : Type} (P : α → Prop) {o : List (String × α)} {k : String} {v : α}
    (h : ∀ p ∈ o, P p.2) (hv : P v) : ∀ p ∈ objSet o k v, P p.2 := by
  induction o with
  | nil => simpa [objSet]
  | cons q rest ih =>
    by_cases hq : (q.1 == k) = true
    · rw [objSet, if_pos hq]
      intro p hp
      rcases List.mem_cons.mp hp with rfl | hp'
      · exact hv
      · exact h p (List.mem_cons_of_mem _ hp')
    · rw [objSet, if_neg hq]
      intro p hp
      rcases List.mem_cons.mp hp with rfl | hp'
      · exact h p (List.mem_cons_self _ _)
      · exact ih (fun r hr => h r (List.mem_cons_of_mem _ hr)) p hp'

theorem keys_objSet {α : Type} (o : List (String × α)) (k : String) (v : α) :
    (objSet o k v).map Prod.fst =
      if objHasKey o k then o.map Prod.fst else o.map Prod.fst ++ [k] := by
  induction o with
  | nil => simp [objSet, objHasKey]
  | cons p rest ih =>
    by_cases hp : (p.1 == k) = true
    · have hpk : p.1 = k := by simpa using hp
      simp [objSet, objHasKey, hp, hpk]
    · have h2 : objHasKey (p :: rest) k = objHasKey rest k := by
        simp [objHasKey, List.any_cons, hp]
      rw [objSet, if_neg hp, h2, List.map_cons, List.map_cons, ih]
      by_cases hr : objHasKey rest k = true
      · simp [hr]
      · simp only [Bool.not_eq_true] at hr
        simp [hr]

theorem objHasKey_iff {α : Type} (o : List (String × α)) (k : String) :
    objHasKey o k = true ↔ k ∈ o.map Prod.fst := by
  simp [objHasKey, List.any_eq_true, List.mem_map]

theorem nodupKeys_objSet {α : Type} (o : List (String × α)) (k : String) (v : α)
    (h : (o.map Prod.fst).Nodup) : ((objSet o k v).map Prod.fst).Nodup := by
  rw [keys_objSet]
  by_cases hk : objHasKey o k = true
  · simpa [hk]
  · simp only [Bool.not_eq_true] at hk
    rw [if_neg (by simp [hk])]
    rw [List.nodup_append]
    refine ⟨h, List.nodup_singleton k, ?_⟩
    intro a ha hb
    simp at hb
    subst hb
    exact absurd ((objHasKey_iff o a).mpr ha) (by simp [hk])

theorem objSet_fresh {α : Type} {o : List (String × α)} {k : String}
    (h : objHasKey o k = false) (v : α) : objSet o k v = o ++ [(k, v)] := by
  induction o with
  | nil => simp [objSet]
  | cons p rest ih =>
    simp only [objHasKey, List.any_cons, Bool.or_eq_false_iff] at h
    rw [objSet, if_neg (by simp [h.1]), ih h.2]
    simp

theorem foldl_inv {β γ : Type} {f : β → γ → β} {Inv : β → Prop}
    (h : ∀ b c, Inv b → Inv (f b c)) :
    ∀ (l : List γ) (b : β), Inv b → Inv (l.foldl f b) := by
  intro l
  induction l with
  | nil => intro b hb; exact hb
  | cons c rest ih => intro b hb; exact ih _ (h b c hb)

/-! ### Projection of a trend mapping onto one time window -/

/-- Modelled from the spec claim about `trendsForWindow`: when the window's
sub-record exists, take its counts and recompute the percent change exactly
as `(recent - previous) / previous * 100` when `previous > 0` (no rounding,
no cap) and `0` when `previous = 0`; otherwise return the record unchanged. -/
def specProjectRecord (timeRange : String) (trend : TrendRecord) : TrendRecord :=
  match objGet trend.timeRanges timeRange with
  | some timeRangeData =>
    { trend with
        changePercent :=
          if timeRangeData.previous > 0 then
            (((timeRangeData.recent : ℚ) - (timeRangeData.previous : ℚ)) /
              (timeRangeData.previous : ℚ)) * 100
          else 0
        recentCount := timeRangeData.recent
        previousCount := timeRangeData.previous }
  | none => trend

theorem getSafetyTrendsForTimeRange_eq_fold (trends : List (String × TrendRecord))
    (timeRange : String) :
    getSafetyTrendsForTimeRange trends timeRange =
      trends.foldl (fun result p => objSet result p.1 (specProjectRecord timeRange p.2)) [] := by
  unfold getSafetyTrendsForTimeRange
  congr 1
  funext result p
  unfold specProjectRecord
  cases objGet p.2.timeRanges timeRange with
  | none => rfl
  | some d => rfl

theorem foldl_objSet_eq_append_map {α β : Type} (g : String × α → β) :
    ∀ (l : List (String × α)) (acc : List (String × β)),
      (l.map Prod.fst).Nodup → (∀ p ∈ l, objHasKey acc p.1 = false) →
      l.foldl (fun res p => objSet res p.1 (g p)) acc = acc ++ l.map (fun p => (p.1, g p)) := by
  intro l
  induction l with
  | nil => intro acc _ _; simp
  | cons p rest ih =>
    intro acc hnd hfresh
    have hfp : objHasKey acc p.1 = false := hfresh p (List.mem_cons_self _ _)
    rw [List.foldl_cons, objSet_fresh hfp]
    have hnd2 : p.1 ∉ rest.map Prod.fst ∧ (rest.map Prod.fst).Nodup := by
      rw [List.map_cons] at hnd
      exact List.nodup_cons.mp hnd
    have hnd' : (rest.map Prod.fst).Nodup := hnd2.2
    have hfresh' : ∀ q ∈ rest, objHasKey (acc ++ [(p.1, g p)]) q.1 = false := by
      intro q hq
      have h1 : objHasKey acc q.1 = false := hfresh q (List.mem_cons_of_mem _ hq)
      have h2 : q.1 ≠ p.1 := by
        intro hEq
        exact hnd2.1 (hEq ▸ List.mem_map_of_mem Prod.fst hq)
      simp [objHasKey, List.any_append, List.any_eq_true] at h1 ⊢
      refine ⟨?_, fun hEq => h2 hEq.symm⟩
      intro a b hab hEq
      exact h1 a b hab hEq
    rw [ih _ hnd' hfresh']
    simp

theorem objGet_map_snd {α β : Type} (g : α → β) :
    ∀ (l : List (String × α)) (k : String),
      objGet (l.map (fun p => (p.1, g p.2))) k = (objGet l k).map g := by
  intro l
  induction l with
  | nil => intro k; simp [objGet]
  | cons p rest ih =>
    intro k
    rw [List.map_cons, objGet_cons, objGet_cons]
    by_cases hp : (p.1 == k) = true
    · simp [hp]
    · simp only [hp]
      rw [if_neg (by simpa using hp), if_neg (by simpa using hp), ih]

theorem getSafetyTrends_objGet (trends : List (String × TrendRecord)) (timeRange : String)
    (hnd : (trends.map Prod.fst).Nodup) (k : String) :
    objGet (getSafetyTrendsForTimeRange trends timeRange) k =
      (objGet trends k).map (specProjectRecord timeRange) := by
  rw [getSafetyTrendsForTimeRange_eq_fold,
    foldl_objSet_eq_append_map (fun p => specProjectRecord timeRange p.2) trends [] hnd
      (fun p _ => rfl)]
  simpa using objGet_map_snd (specProjectRecord timeRange) trends k

/-! ### Per-community step lemmas -/

theorem processCommunity_objGet_other (rIdx pIdx : ℤ × ℤ → List Crime) (tr : String)
    (trends : List (String × TrendRecord)) (c : Community) (k : String)
    (hk : k ≠ communityIdOf c) :
    objGet (processCommunity rIdx pIdx tr trends c) k = objGet trends k := by
  simp only [processCommunity]
  by_cases hdeg : (getPolygonCoordinates c.geometry).length < 3
  · rw [if_pos hdeg]
    exact objGet_objSet_other _ _ _ _ hk
  · rw [if_neg hdeg]
    exact objGet_objSet_other _ _ _ _ hk

/-- The documented shape of a stored percent change: the raw ratio is
rounded with `Math.round` and capped one-sidedly at 100, and a zero
previous count yields 0. -/
def cpFormula (rec : TrendRecord) : Prop :=
  rec.changePercent = ((min 100 (jsRound (if rec.previousCount > 0 then
    (((rec.recentCount : ℚ) - (rec.previousCount : ℚ)) / (rec.previousCount : ℚ)) * 100
  else 0)) : ℤ) : ℚ)

theorem processCommunity_changePercent_inv (rIdx pIdx : ℤ × ℤ → List Crime) (tr : String)
    (trends : List (String × TrendRecord)) (c : Community)
    (h : ∀ p ∈ trends, cpFormula p.2) :
    ∀ p ∈ processCommunity rIdx pIdx tr trends c, cpFormula p.2 := by
  intro p hp
  simp only [processCommunity] at hp
  by_cases hdeg : (getPolygonCoordinates c.geometry).length < 3
  · rw [if_pos hdeg] at hp
    refine objSet_forall cpFormula h ?_ p hp
    unfold cpFormula degenerateTrendRecord
    dsimp only
    with_unfolding_all decide
  · rw [if_neg hdeg] at hp
    refine objSet_forall cpFormula h ?_ p hp
    unfold cpFormula
    rfl

theorem calc_forall_changePercent (env : JsEnv) (comm : Option CommunityCollection)
    (cd : Option CrimeData) (tr : String) (sel : Option (List String)) :
    ∀ p ∈ calculateSafetyTrends env comm cd tr sel, cpFormula p.2 := by
  rcases comm with _ | ⟨_ | cfs⟩
  · simp [calculateSafetyTrends]
  · simp [calculateSafetyTrends]
  · rcases cd with _ | ⟨_ | crf⟩
    · simp [calculateSafetyTrends]
    · simp [calculateSafetyTrends]
    · simp only [calculateSafetyTrends]
      by_cases hlen : crf.length = 0
      · simp [hlen]
      · rw [if_neg hlen]
        exact foldl_inv (fun b c hb => processCommunity_changePercent_inv _ _ _ b c hb) cfs []
          (by simp)

/-! ### Concrete example data -/

/-- A concrete host environment: three parseable year strings. -/
def exEnv : JsEnv :=
  { parseDate := fun s =>
      if s = "2025" then some ⟨2025000, 2025⟩
      else if s = "2024" then some ⟨2024000, 2024⟩
      else if s = "2023" then some ⟨2023000, 2023⟩
      else none
    dynamicNow := ⟨9999999, 2025⟩
    sixMonthsAgo := ⟨0, 2024⟩
    twelveMonthsAgo := ⟨-1, 2024⟩ }

/-- A small square boundary (GeoJSON ring in `[lon, lat]` order). -/
def exSquareGeometry : Geometry :=
  .polygon [[[0, 0], [1/100, 0], [1/100, 1/100], [0, 1/100], [0, 0]]]

/-- A neighborhood with the square boundary and identifier `sq`. -/
def exCommunitySq : Community :=
  { id := some "sq"
    properties := some { MAPNAME := some "Square", name := none }
    geometry := some exSquareGeometry }

/-- A crime record at `(lon, lat)` with the given timestamp string. -/
def exCrime (year : String) (lon lat : ℚ) : Crime :=
  { geometry := some { coordinates := some [lon, lat] }
    properties := { dispatch_date_time := some year, text_general_code := some "Thefts" } }

/-- One 2025 incident and eight 2024 incidents, all inside the square. -/
def exCrimeDataC3 : CrimeData :=
  ⟨some (exCrime "2025" (1/200) (1/200) :: List.replicate 8 (exCrime "2024" (1/200) (1/200)))⟩

/-- One 2025 incident and one 2023 incident, both inside the square. -/
def exCrimeDataC12 : CrimeData :=
  ⟨some [exCrime "2025" (1/200) (1/200), exCrime "2023" (1/200) (1/200)]⟩

/-- A 2025 incident just above the square's top edge, within the
point-on-segment tolerance. -/
def exCrimeC6 : Crime := exCrime "2025" (1/200) (1/100 + 1/200000)

/-- A neighborhood whose geometry extracts to only 2 vertices. -/
def exDegCommunity : Community :=
  { id := some "deg"
    properties := some { MAPNAME := some "Degenerate", name := none }
    geometry := some (.polygon [[[0, 0], [1, 0]]]) }

/-- A crime whose label contains both the sentinel string and an excluded
substring. -/
def exCrimeC7 : Crime :=
  { geometry := some { coordinates := some [1/200, 1/200] }
    properties := { dispatch_date_time := some "2025"
                    text_general_code := some "Violent Crime Theft from Vehicle" } }

/-! ### Claim C9 -/

/-- C9: if the neighborhood collection or the point dataset is missing its
required `features` collection field (or is absent entirely),
`calculateSafetyTrends` returns an empty trend mapping (and, being a total
function, does so without throwing), producing no per-neighborhood
records. -/
theorem malformed_input_empty (env : JsEnv) (tr : String) (sel : Option (List String)) :
    (∀ cd : Option CrimeData,
      calculateSafetyTrends env none cd tr sel = [] ∧
      calculateSafetyTrends env (some ⟨none⟩) cd tr sel = []) ∧
    (∀ comm : Option CommunityCollection,
      calculateSafetyTrends env comm none tr sel = [] ∧
      calculateSafetyTrends env comm (some ⟨none⟩) tr sel = []) := by
  refine ⟨fun cd => ⟨rfl, rfl⟩, fun comm => ⟨?_, ?_⟩⟩ <;>
    rcases comm with _ | ⟨_ | f⟩ <;> rfl

/-! ### Claim C3 -/

/-- Modelled from the claim wording of C3: rounding half away from zero. -/
def specRoundHalfAwayFromZero (q : ℚ) : ℤ :=
  if q ≥ 0 then ⌊q + 1/2⌋ else -⌊-q + 1/2⌋

/-- C3 (amended): every record produced by `calculateSafetyTrends` stores
`changePercent = min(100, round(raw))` where `round` is JS `Math.round`
(half toward positive infinity, not half away from zero), `raw` is
`(recent - previous) / previous * 100` when `previousCount > 0`, and `0`
when `previousCount = 0`; the cap is one-sided at `+100`. -/
theorem changePercent_formula (env : JsEnv) (comm : Option CommunityCollection)
    (cd : Option CrimeData) (tr : String) (sel : Option (List String)) (id : String)
    (rec : TrendRecord)
    (h : objGet (calculateSafetyTrends env comm cd tr sel) id = some rec) :
    rec.changePercent = ((min 100 (jsRound (if rec.previousCount > 0 then
      (((rec.recentCount : ℚ) - (rec.previousCount : ℚ)) / (rec.previousCount : ℚ)) * 100
    else 0)) : ℤ) : ℚ) :=
  calc_forall_changePercent env comm cd tr sel (id, rec) (objGet_mem h)

/-- Witness for C3's theorem at a concrete input: a neighborhood with 1
recent and 8 previous incidents. -/
theorem changePercent_formula_witness :
    ∃ rec, objGet (calculateSafetyTrends exEnv (some ⟨some [exCommunitySq]⟩)
        (some exCrimeDataC3) "1year" none) "sq" = some rec ∧
      rec.changePercent = ((min 100 (jsRound (if rec.previousCount > 0 then
        (((rec.recentCount : ℚ) - (rec.previousCount : ℚ)) / (rec.previousCount : ℚ)) * 100
      else 0)) : ℤ) : ℚ) := by
  rcases hr : objGet (calculateSafetyTrends exEnv (some ⟨some [exCommunitySq]⟩)
      (some exCrimeDataC3) "1year" none) "sq" with _ | rec
  · exact absurd hr (by with_unfolding_all decide)
  · exact ⟨rec, rfl, changePercent_formula exEnv _ _ _ _ _ _ hr⟩

/-- Counterexample to C3 as stated: with 1 recent and 8 previous incidents
the raw percent change is `-87.5`; the code stores `Math.round(-87.5) = -87`
while the claimed round-half-away-from-zero formula yields `-88`. -/
theorem changePercent_rounding_counterexample :
    (objGet (calculateSafetyTrends exEnv (some ⟨some [exCommunitySq]⟩) (some exCrimeDataC3)
        "1year" none) "sq").map (fun r => (r.recentCount, r.previousCount, r.changePercent)) =
      some (1, 8, ((-87 : ℤ) : ℚ)) ∧
    specRoundHalfAwayFromZero (min 100 ((((1 : ℚ) - 8) / 8) * 100)) = -88 ∧
    ((-87 : ℤ) : ℚ) ≠ ((-88 : ℤ) : ℚ) := by
  refine ⟨by with_unfolding_all decide, by with_unfolding_all decide, by norm_num⟩

/-! ### Claim C2 -/

theorem foldl_inv_mem {β γ : Type} {f : β → γ → β} (Inv : β → Prop) (l : List γ)
    (h : ∀ b, ∀ c ∈ l, Inv b → Inv (f b c)) : ∀ b, Inv b → Inv (l.foldl f b) := by
  induction l with
  | nil => intro b hb; exact hb
  | cons c rest ih =>
    intro b hb
    exact ih (fun b' c' hc' hb' => h b' c' (List.mem_cons_of_mem _ hc') hb') _
      (h b c (List.mem_cons_self _ _) hb)

theorem processCommunity_timeRanges_keys_inv (rIdx pIdx : ℤ × ℤ → List Crime) (tr : String)
    (trends : List (String × TrendRecord)) (c : Community)
    (h : ∀ p ∈ trends, ∀ V, V ≠ tr → V ≠ "6months" → objGet p.2.timeRanges V = none) :
    ∀ p ∈ processCommunity rIdx pIdx tr trends c, ∀ V, V ≠ tr → V ≠ "6months" →
      objGet p.2.timeRanges V = none := by
  intro p hp
  simp only [processCommunity] at hp
  by_cases hdeg : (getPolygonCoordinates c.geometry).length < 3
  · rw [if_pos hdeg] at hp
    refine objSet_forall
      (fun rec => ∀ V, V ≠ tr → V ≠ "6months" → objGet rec.timeRanges V = none)
      h ?_ p hp
    intro V _ hV6
    show objGet [("6months", _)] V = none
    rw [objGet_cons, if_neg (by simp; exact fun hEq => hV6 hEq.symm)]
    rfl
  · rw [if_neg hdeg] at hp
    refine objSet_forall
      (fun rec => ∀ V, V ≠ tr → V ≠ "6months" → objGet rec.timeRanges V = none)
      h ?_ p hp
    intro V hVtr hV6
    dsimp only
    rw [objGet_objSet_other _ _ _ _ hVtr]
    rcases hx : objGet trends (communityIdOf c) with _ | prev
    · simp [hx, objGet]
    · simp only [hx]
      exact h (communityIdOf c, prev) (objGet_mem hx) V hVtr hV6

theorem calc_forall_timeRanges_keys (env : JsEnv) (comm : Option CommunityCollection)
    (cd : Option CrimeData) (tr : String) (sel : Option (List String)) :
    ∀ p ∈ calculateSafetyTrends env comm cd tr sel, ∀ V, V ≠ tr → V ≠ "6months" →
      objGet p.2.timeRanges V = none := by
  rcases comm with _ | ⟨_ | cfs⟩
  · simp [calculateSafetyTrends]
  · simp [calculateSafetyTrends]
  · rcases cd with _ | ⟨_ | crf⟩
    · simp [calculateSafetyTrends]
    · simp [calculateSafetyTrends]
    · simp only [calculateSafetyTrends]
      by_cases hlen : crf.length = 0
      · simp [hlen]
      · rw [if_neg hlen]
        exact foldl_inv (fun b c hb => processCommunity_timeRanges_keys_inv _ _ _ b c hb)
          cfs [] (by simp)

/-- C2 (amended): each `calculateSafetyTrends` invocation builds its result
from an empty mapping; the returned record of a neighborhood carries a
`timeRanges` sub-record only for the invocation's own window (plus, for
degenerate boundaries, the hard-coded `'6months'` zero entry) — sub-records
from earlier invocations for other windows are not preserved, since the
function has no access to prior results. -/
theorem trends_timeRanges_only_current_window (env : JsEnv)
    (comm : Option CommunityCollection) (cd : Option CrimeData) (W : String)
    (sel : Option (List String)) (id : String) (rec : TrendRecord)
    (h : objGet (calculateSafetyTrends env comm cd W sel) id = some rec)
    (V : String) (hV : V ≠ W) (hV6 : V ≠ "6months") :
    objGet rec.timeRanges V = none :=
  calc_forall_timeRanges_keys env comm cd W sel (id, rec) (objGet_mem h) V hV hV6

/-- Witness for C2's amended theorem: after computing the `2years` window,
the record holds no `1year` sub-record. -/
theorem trends_timeRanges_only_current_window_witness :
    ∃ rec, objGet (calculateSafetyTrends exEnv (some ⟨some [exCommunitySq]⟩)
        (some exCrimeDataC12) "2years" none) "sq" = some rec ∧
      objGet rec.timeRanges "1year" = none := by
  rcases hr : objGet (calculateSafetyTrends exEnv (some ⟨some [exCommunitySq]⟩)
      (some exCrimeDataC12) "2years" none) "sq" with _ | rec
  · exact absurd hr (by with_unfolding_all decide)
  · exact ⟨rec, rfl, trends_timeRanges_only_current_window exEnv _ _ "2years" none "sq" rec hr
      "1year" (by decide) (by decide)⟩

/-- Counterexample to C2 as stated: computing the `1year` window produces a
record with a `1year` sub-record, but a subsequent invocation for `2years`
over the same data returns a record containing the `2years` sub-record and
no `1year` sub-record — the earlier window's sub-record is not merged in. -/
theorem trends_multiWindow_not_accumulated :
    (objGet (calculateSafetyTrends exEnv (some ⟨some [exCommunitySq]⟩) (some exCrimeDataC12)
        "1year" none) "sq").map (fun r => (objGet r.timeRanges "1year").isSome) = some true ∧
    (objGet (calculateSafetyTrends exEnv (some ⟨some [exCommunitySq]⟩) (some exCrimeDataC12)
        "2years" none) "sq").map (fun r =>
          ((objGet r.timeRanges "2years").isSome, (objGet r.timeRanges "1year").isSome)) =
      some (true, false) := by
  exact ⟨by with_unfolding_all decide, by with_unfolding_all decide⟩

/-! ### Claim C4 -/

theorem calc_valid_eq_fold (env : JsEnv) (cfs : List Community) (crf : List Crime)
    (tr : String) (sel : Option (List String)) (hne : ¬(crf.length = 0)) :
    calculateSafetyTrends env (some ⟨some cfs⟩) (some ⟨some crf⟩) tr sel =
      cfs.foldl (processCommunity
        (createSpatialIndex (some ⟨some (crf.filter (fun c =>
          isCrimeTypeSelected sel c && (crimePeriod env tr c == some "recent")))⟩) (1/100))
        (createSpatialIndex (some ⟨some (crf.filter (fun c =>
          isCrimeTypeSelected sel c && (crimePeriod env tr c == some "previous")))⟩) (1/100))
        tr) [] := by
  simp only [calculateSafetyTrends]
  rw [if_neg hne]

/-- C4: a boundary whose geometry extracts to fewer than 3 vertices yields
a trend record with `recentCount = previousCount = 0` and
`changePercent = 0`; the fold continues over the remaining boundaries
(the function is total, so no error propagates). -/
theorem degenerate_boundary_zero_record (env : JsEnv) (l₁ l₂ : List Community)
    (c : Community) (crf : List Crime) (tr : String) (sel : Option (List String))
    (hne : ¬(crf.length = 0))
    (hdeg : (getPolygonCoordinates c.geometry).length < 3)
    (hafter : ∀ c' ∈ l₂, communityIdOf c' ≠ communityIdOf c) :
    objGet (calculateSafetyTrends env (some ⟨some (l₁ ++ c :: l₂)⟩) (some ⟨some crf⟩) tr sel)
        (communityIdOf c) = some (degenerateTrendRecord c) ∧
    (degenerateTrendRecord c).recentCount = 0 ∧
    (degenerateTrendRecord c).previousCount = 0 ∧
    (degenerateTrendRecord c).changePercent = 0 := by
  refine ⟨?_, rfl, rfl, rfl⟩
  rw [calc_valid_eq_fold env _ _ tr sel hne, List.foldl_append, List.foldl_cons]
  refine foldl_inv_mem
    (fun t => objGet t (communityIdOf c) = some (degenerateTrendRecord c)) l₂ ?_ _ ?_
  · intro b c' hc' hb
    rw [processCommunity_objGet_other _ _ _ _ _ _ (fun hEq => hafter c' hc' hEq.symm)]
    exact hb
  · simp only [processCommunity]
    rw [if_pos hdeg]
    exact objGet_objSet_self _ _ _

/-- Witness for C4's theorem: a two-vertex boundary with nonempty crime
data produces the zero-valued record. -/
theorem degenerate_boundary_zero_record_witness :
    objGet (calculateSafetyTrends exEnv (some ⟨some [exDegCommunity]⟩)
        (some ⟨some [exCrime "2025" (1/200) (1/200)]⟩) "1year" none)
      (communityIdOf exDegCommunity) = some (degenerateTrendRecord exDegCommunity) ∧
    (degenerateTrendRecord exDegCommunity).recentCount = 0 ∧
    (degenerateTrendRecord exDegCommunity).previousCount = 0 ∧
    (degenerateTrendRecord exDegCommunity).changePercent = 0 :=
  degenerate_boundary_zero_record exEnv [] [] exDegCommunity
    [exCrime "2025" (1/200) (1/200)] "1year" none (by decide)
    (by with_unfolding_all decide) (by simp)

/-! ### Claim C10 -/

/-- C10: `getSafetyTrendsForTimeRange` is, pointwise on a mapping with
unique identifiers (as every JS object has), exactly the documented
projection: when the window's sub-record exists, `recentCount` and
`previousCount` are taken from it and `changePercent` is recomputed exactly
as `(recent - previous) / previous * 100` when `previous > 0` (no rounding
and no +100 cap) and `0` when `previous = 0`; a record lacking the
sub-record is returned unchanged. -/
theorem trendsForWindow_projection (trends : List (String × TrendRecord)) (w : String)
    (hnd : (trends.map Prod.fst).Nodup) (id : String) :
    objGet (getSafetyTrendsForTimeRange trends w) id =
      (objGet trends id).map (specProjectRecord w) :=
  getSafetyTrends_objGet trends w hnd id

/-- A concrete trend record used by the C10 witness. -/
def exTrendRec : TrendRecord :=
  { communityId := "a"
    communityName := "A"
    recentCount := 7
    previousCount := 3
    changePercent := 100
    crimeTypes := []
    timeRanges := [("6months", { recent := 4, previous := 2, changePercent := 100 })] }

/-- Witness for C10's theorem at a concrete one-entry mapping. -/
theorem trendsForWindow_projection_witness :
    (([("a", exTrendRec)].map Prod.fst).Nodup) ∧
    objGet (getSafetyTrendsForTimeRange [("a", exTrendRec)] "6months") "a" =
      (objGet [("a", exTrendRec)] "a").map (specProjectRecord "6months") :=
  ⟨by decide, trendsForWindow_projection [("a", exTrendRec)] "6months" (by decide) "a"⟩

/-! ### Claim C1 -/

theorem processCommunity_keys_nodup (rIdx pIdx : ℤ × ℤ → List Crime) (tr : String)
    (trends : List (String × TrendRecord)) (c : Community)
    (h : (trends.map Prod.fst).Nodup) :
    ((processCommunity rIdx pIdx tr trends c).map Prod.fst).Nodup := by
  simp only [processCommunity]
  by_cases hdeg : (getPolygonCoordinates c.geometry).length < 3
  · rw [if_pos hdeg]
    exact nodupKeys_objSet _ _ _ h
  · rw [if_neg hdeg]
    exact nodupKeys_objSet _ _ _ h

theorem calc_keys_nodup (env : JsEnv) (comm : Option CommunityCollection)
    (cd : Option CrimeData) (tr : String) (sel : Option (List String)) :
    ((calculateSafetyTrends env comm cd tr sel).map Prod.fst).Nodup := by
  rcases comm with _ | ⟨_ | cfs⟩
  · simp [calculateSafetyTrends]
  · simp [calculateSafetyTrends]
  · rcases cd with _ | ⟨_ | crf⟩
    · simp [calculateSafetyTrends]
    · simp [calculateSafetyTrends]
    · simp only [calculateSafetyTrends]
      by_cases hlen : crf.length = 0
      · simp [hlen]
      · rw [if_neg hlen]
        exact foldl_inv (fun b c hb => processCommunity_keys_nodup _ _ _ b c hb) cfs []
          (by simp)

theorem processCommunity_timeRanges_self_inv (rIdx pIdx : ℤ × ℤ → List Crime) (tr : String)
    (trends : List (String × TrendRecord)) (c : Community)
    (h : ∀ p ∈ trends, ∀ d, objGet p.2.timeRanges tr = some d →
      d.recent = p.2.recentCount ∧ d.previous = p.2.previousCount) :
    ∀ p ∈ processCommunity rIdx pIdx tr trends c, ∀ d, objGet p.2.timeRanges tr = some d →
      d.recent = p.2.recentCount ∧ d.previous = p.2.previousCount := by
  intro p hp
  simp only [processCommunity] at hp
  by_cases hdeg : (getPolygonCoordinates c.geometry).length < 3
  · rw [if_pos hdeg] at hp
    refine objSet_forall
      (fun rec => ∀ d, objGet rec.timeRanges tr = some d →
        d.recent = rec.recentCount ∧ d.previous = rec.previousCount)
      h ?_ p hp
    intro d hd
    rw [show (degenerateTrendRecord c).timeRanges =
      [("6months", { recent := 0, previous := 0, changePercent := 0 })] from rfl,
      objGet_cons] at hd
    by_cases h6 : (("6months" : String) == tr) = true
    · rw [if_pos h6] at hd
      have : ({ recent := 0, previous := 0, changePercent := 0 } : TimeRangeResult) = d := by
        injection hd
      rw [← this]
      exact ⟨rfl, rfl⟩
    · rw [if_neg h6] at hd
      simp [objGet] at hd
  · rw [if_neg hdeg] at hp
    refine objSet_forall
      (fun rec => ∀ d, objGet rec.timeRanges tr = some d →
        d.recent = rec.recentCount ∧ d.previous = rec.previousCount)
      h ?_ p hp
    intro d hd
    dsimp only at hd ⊢
    rw [objGet_objSet_self] at hd
    have hdeq := Option.some.inj hd
    rw [← hdeq]
    exact ⟨rfl, rfl⟩

theorem calc_forall_timeRanges_self (env : JsEnv) (comm : Option CommunityCollection)
    (cd : Option CrimeData) (tr : String) (sel : Option (List String)) :
    ∀ p ∈ calculateSafetyTrends env comm cd tr sel, ∀ d, objGet p.2.timeRanges tr = some d →
      d.recent = p.2.recentCount ∧ d.previous = p.2.previousCount := by
  rcases comm with _ | ⟨_ | cfs⟩
  · simp [calculateSafetyTrends]
  · simp [calculateSafetyTrends]
  · rcases cd with _ | ⟨_ | crf⟩
    · simp [calculateSafetyTrends]
    · simp [calculateSafetyTrends]
    · simp only [calculateSafetyTrends]
      by_cases hlen : crf.length = 0
      · simp [hlen]
      · rw [if_neg hlen]
        exact foldl_inv (fun b c hb => processCommunity_timeRanges_self_inv _ _ _ b c hb)
          cfs [] (by simp)

/-- C1 (amended): projecting a window `A` via `getSafetyTrendsForTimeRange`
on the mapping produced by the window-`A` computation itself returns, for
every neighborhood, the same `recentCount` and `previousCount` as that
computation.  The round trip through a later computation for a different
window fails, because each `calculateSafetyTrends` invocation discards
prior windows' sub-records (see the counterexample), and the projected
`changePercent` is recomputed without rounding or capping. -/
theorem trends_roundtrip_sameWindow_counts (env : JsEnv)
    (comm : Option CommunityCollection) (cd : Option CrimeData) (A : String)
    (sel : Option (List String)) (id : String) (rec' : TrendRecord)
    (h : objGet (getSafetyTrendsForTimeRange (calculateSafetyTrends env comm cd A sel) A) id
      = some rec') :
    ∃ rec, objGet (calculateSafetyTrends env comm cd A sel) id = some rec ∧
      rec'.recentCount = rec.recentCount ∧ rec'.previousCount = rec.previousCount := by
  rw [getSafetyTrends_objGet _ _ (calc_keys_nodup env comm cd A sel) id] at h
  rcases hx : objGet (calculateSafetyTrends env comm cd A sel) id with _ | rec
  · rw [hx] at h
    simp at h
  · rw [hx] at h
    simp only [Option.map_some'] at h
    have hrec' : specProjectRecord A rec = rec' := by injection h
    refine ⟨rec, rfl, ?_, ?_⟩
    · rw [← hrec']
      unfold specProjectRecord
      rcases hd : objGet rec.timeRanges A with _ | d
      · rfl
      · exact (calc_forall_timeRanges_self env comm cd A sel (id, rec)
          (objGet_mem hx) d hd).1
    · rw [← hrec']
      unfold specProjectRecord
      rcases hd : objGet rec.timeRanges A with _ | d
      · rfl
      · exact (calc_forall_timeRanges_self env comm cd A sel (id, rec)
          (objGet_mem hx) d hd).2

/-- Witness for C1's amended theorem: projecting `1year` from the mapping
its own computation produced preserves both counts. -/
theorem trends_roundtrip_sameWindow_counts_witness :
    ∃ rec', objGet (getSafetyTrendsForTimeRange (calculateSafetyTrends exEnv
        (some ⟨some [exCommunitySq]⟩) (some exCrimeDataC12) "1year" none) "1year") "sq"
      = some rec' ∧
      ∃ rec, objGet (calculateSafetyTrends exEnv (some ⟨some [exCommunitySq]⟩)
          (some exCrimeDataC12) "1year" none) "sq" = some rec ∧
        rec'.recentCount = rec.recentCount ∧ rec'.previousCount = rec.previousCount := by
  rcases hr : objGet (getSafetyTrendsForTimeRange (calculateSafetyTrends exEnv
      (some ⟨some [exCommunitySq]⟩) (some exCrimeDataC12) "1year" none) "1year") "sq"
    with _ | rec'
  · exact absurd hr (by with_unfolding_all decide)
  · exact ⟨rec', rfl,
      trends_roundtrip_sameWindow_counts exEnv _ _ "1year" none "sq" rec' hr⟩

/-- Counterexample to C1 as stated: with one 2025 and one 2023 incident,
the `1year` computation reports `previousCount = 0`, but after a later
`2years` computation the projection of `1year` from that latest mapping
returns `previousCount = 1` (the window-B values pass through unchanged,
because the `1year` sub-record was not retained). -/
theorem trends_roundtrip_crossWindow_fails :
    (objGet (calculateSafetyTrends exEnv (some ⟨some [exCommunitySq]⟩) (some exCrimeDataC12)
        "1year" none) "sq").map (fun r => r.previousCount) = some 0 ∧
    (objGet (getSafetyTrendsForTimeRange (calculateSafetyTrends exEnv
        (some ⟨some [exCommunitySq]⟩) (some exCrimeDataC12) "2years" none) "1year")
      "sq").map (fun r => r.previousCount) = some 1 := by
  exact ⟨by with_unfolding_all decide, by with_unfolding_all decide⟩

/-! ### Claim C5 -/

/-- Exact membership of a point on the segment between two vertices
(convex parametrisation; symmetric in the endpoints up to `t ↦ 1 - t`). -/
def onSegmentParam (lat lon : ℚ) (a b : ℚ × ℚ) : Prop :=
  ∃ t : ℚ, 0 ≤ t ∧ t ≤ 1 ∧ lat = a.1 + t * (b.1 - a.1) ∧ lon = a.2 + t * (b.2 - a.2)

theorem convex_min_max (x y t : ℚ) (h0 : 0 ≤ t) (h1 : t ≤ 1) :
    min x y ≤ x + t * (y - x) ∧ x + t * (y - x) ≤ max x y := by
  rcases le_total x y with h | h
  · rw [min_eq_left h, max_eq_right h]
    constructor <;> nlinarith
  · rw [min_eq_right h, max_eq_left h]
    constructor <;> nlinarith

theorem onSeg_of_param (lat lon : ℚ) (a b : ℚ × ℚ) (hp : onSegmentParam lat lon a b) :
    isPointOnLineSegment lat lon a.1 a.2 b.1 b.2 = true := by
  obtain ⟨t, h0, h1, hlat, hlon⟩ := hp
  have hlatb := convex_min_max a.1 b.1 t h0 h1
  have hlonb := convex_min_max a.2 b.2 t h0 h1
  unfold isPointOnLineSegment
  rw [if_neg]
  · rw [decide_eq_true_eq]
    have hc : (lat - a.1) * (b.2 - a.2) - (lon - a.2) * (b.1 - a.1) = 0 := by
      rw [hlat, hlon]; ring
    rw [hc]
    norm_num
  · intro hcond
    simp only [Bool.or_eq_true, decide_eq_true_eq] at hcond
    rcases hcond with ((hc | hc) | hc) | hc <;> linarith [hlatb.1, hlatb.2, hlonb.1, hlonb.2]

theorem pipGo_true_of_onSeg (lat lon : ℚ) :
    ∀ (pairs : List ((ℚ × ℚ) × (ℚ × ℚ))) (inside : Bool),
      (∃ pr ∈ pairs, onSegPair lat lon pr = true) → pipGo lat lon pairs inside = true := by
  intro pairs
  induction pairs with
  | nil =>
    rintro inside ⟨pr, hm, _⟩
    cases hm
  | cons q rest ih =>
    rintro inside ⟨pr, hm, hseg⟩
    simp only [pipGo]
    by_cases hq : onSegPair lat lon q = true
    · rw [if_pos hq]
    · rw [if_neg hq]
      rcases List.mem_cons.mp hm with rfl | hm'
      · exact absurd hseg hq
      · exact ih _ ⟨pr, hm', hseg⟩

/-- C5: a point lying exactly on one of the polygon's edges — the edges
iterated by `pointInPolygon`, including the wrap-around edge from the last
to the first vertex — is classified as contained whenever the polygon has
at least 3 vertices (the on-segment early exit fires for that edge). -/
theorem onEdge_point_contained (lat lon : ℚ) (polygon : List (ℚ × ℚ))
    (h3 : 3 ≤ polygon.length)
    (h : ∃ pr ∈ edgePairs polygon, onSegmentParam lat lon pr.1 pr.2) :
    pointInPolygon lat lon polygon = true := by
  unfold pointInPolygon
  rw [if_neg (by omega)]
  obtain ⟨pr, hm, hp⟩ := h
  exact pipGo_true_of_onSeg lat lon _ false ⟨pr, hm, onSeg_of_param lat lon pr.1 pr.2 hp⟩

/-- Witness for C5's theorem: the midpoint of the left edge of the unit
square is contained. -/
theorem onEdge_point_contained_witness :
    (∃ pr ∈ edgePairs [((0 : ℚ), (0 : ℚ)), (0, 1), (1, 1), (1, 0)],
      onSegmentParam 0 (1/2) pr.1 pr.2) ∧
    pointInPolygon 0 (1/2) [((0 : ℚ), (0 : ℚ)), (0, 1), (1, 1), (1, 0)] = true := by
  have hmem : (((0 : ℚ), (1 : ℚ)), ((0 : ℚ), (0 : ℚ))) ∈
      edgePairs [((0 : ℚ), (0 : ℚ)), (0, 1), (1, 1), (1, 0)] := by
    with_unfolding_all decide
  have hpar : onSegmentParam 0 (1/2) ((0 : ℚ), (1 : ℚ)) ((0 : ℚ), (0 : ℚ)) :=
    ⟨1/2, by norm_num, by norm_num, by norm_num, by norm_num⟩
  exact ⟨⟨_, hmem, hpar⟩,
    onEdge_point_contained 0 (1/2) _ (by decide) ⟨_, hmem, hpar⟩⟩

/-! ### Claim C7 -/

theorem leadsWith_iff : ∀ (n h : List Char), leadsWith n h = true ↔ ∃ r, h = n ++ r := by
  intro n
  induction n with
  | nil => intro h; simp [leadsWith]
  | cons a as ih =>
    intro h
    cases h with
    | nil => simp [leadsWith]
    | cons b bs =>
      simp only [leadsWith, Bool.and_eq_true, beq_iff_eq, ih bs]
      constructor
      · rintro ⟨rfl, r, rfl⟩
        exact ⟨r, rfl⟩
      · rintro ⟨r, hEq⟩
        injection hEq with h1 h2
        exact ⟨h1.symm, r, h2⟩

theorem occursIn_iff : ∀ (n h : List Char), occursIn n h = true ↔ ∃ l r, h = l ++ n ++ r := by
  intro n h
  induction h with
  | nil =>
    simp only [occursIn, leadsWith_iff]
    constructor
    · rintro ⟨r, hEq⟩
      exact ⟨[], r, by simpa using hEq⟩
    · rintro ⟨l, r, hEq⟩
      have h3 : l = [] ∧ n = [] ∧ r = [] := by simpa using hEq.symm
      exact ⟨r, by simp [h3.2.1, h3.2.2]⟩
  | cons c t ih =>
    simp only [occursIn, Bool.or_eq_true, leadsWith_iff, ih]
    constructor
    · rintro (⟨r, hEq⟩ | ⟨l, r, hEq⟩)
      · exact ⟨[], r, by simpa using hEq⟩
      · exact ⟨c :: l, r, by simp [hEq]⟩
    · rintro ⟨l, r, hEq⟩
      cases l with
      | nil => exact Or.inl ⟨r, by simpa using hEq⟩
      | cons x xs =>
        rw [List.cons_append, List.cons_append] at hEq
        injection hEq with h1 h2
        exact Or.inr ⟨xs, r, h2⟩

/-- Contiguous-substring containment, stated independently of the source's
scanning loop. -/
def substrOccurs (sub s : String) : Prop :=
  ∃ l r : List Char, s.data = l ++ sub.data ++ r

theorem jsIncludes_iff (s sub : String) :
    jsIncludes s sub = true ↔ substrOccurs sub s :=
  occursIn_iff sub.data s.data

/-- C7 (amended): with an empty or absent selection every record matches;
otherwise a record matches iff some selected category either is the
sentinel `Violent Crime` and the record's label contains none of the four
excluded substrings, or is a *non-sentinel* category contained in the
label as a case-sensitive substring.  (The sentinel never matches via the
substring branch, which the claim's unguarded disjunction would allow.) -/
theorem category_filter_semantics (sel : Option (List String)) (crime : Crime) :
    isCrimeTypeSelected sel crime = true ↔
      (sel = none ∨ ∃ l, sel = some l ∧ (l = [] ∨ ∃ t ∈ l,
        (t = "Violent Crime" ∧ ∀ ex ∈ otherSpecificTypes,
          ¬ substrOccurs ex (jsOrStr crime.properties.text_general_code "")) ∨
        (t ≠ "Violent Crime" ∧
          substrOccurs t (jsOrStr crime.properties.text_general_code "")))) := by
  cases sel with
  | none => simp [isCrimeTypeSelected]
  | some l =>
    simp only [isCrimeTypeSelected]
    by_cases hl : l.isEmpty
    · have hle : l = [] := by simpa [List.isEmpty_iff] using hl
      simp [hl, hle]
    · rw [if_neg hl]
      have hlne : ¬(l = []) := by simpa [List.isEmpty_iff] using hl
      simp only [List.any_eq_true]
      constructor
      · rintro ⟨t, ht, hcond⟩
        refine Or.inr ⟨l, rfl, Or.inr ⟨t, ht, ?_⟩⟩
        by_cases hsent : (t == "Violent Crime") = true
        · rw [if_pos hsent] at hcond
          left
          refine ⟨by simpa using hsent, ?_⟩
          intro ex hex hocc
          have hIncl : jsIncludes (jsOrStr crime.properties.text_general_code "") ex = true :=
            (jsIncludes_iff _ _).mpr hocc
          have hany : otherSpecificTypes.any
              (fun o => jsIncludes (jsOrStr crime.properties.text_general_code "") o) = true :=
            List.any_eq_true.mpr ⟨ex, hex, hIncl⟩
          rw [hany] at hcond
          cases hcond
        · rw [if_neg hsent] at hcond
          exact Or.inr ⟨by simpa using hsent, (jsIncludes_iff _ _).mp hcond⟩
      · rintro (hnone | ⟨l', hl', hcase⟩)
        · cases hnone
        · injection hl' with hll
          subst hll
          rcases hcase with rfl | ⟨t, ht, hdisj⟩
          · exact absurd rfl hlne
          · refine ⟨t, ht, ?_⟩
            rcases hdisj with ⟨hts, hex⟩ | ⟨hts, hocc⟩
            · rw [if_pos (by simp [hts])]
              cases hany : otherSpecificTypes.any
                  (fun o => jsIncludes (jsOrStr crime.properties.text_general_code "") o) with
              | false => rfl
              | true =>
                obtain ⟨ex, hexm, hinc⟩ := List.any_eq_true.mp hany
                exact absurd ((jsIncludes_iff _ _).mp hinc) (hex ex hexm)
            · rw [if_neg (by simpa using hts)]
              exact (jsIncludes_iff _ _).mpr hocc

/-- Counterexample to C7 as stated: for the selection `["Violent Crime"]`
and a record labelled `Violent Crime Theft from Vehicle` the code rejects
the record (the label contains an excluded substring and the sentinel
branch is exclusive), while the claim's unguarded disjunction accepts it
because the label contains `Violent Crime` as a substring. -/
theorem category_filter_sentinel_counterexample :
    isCrimeTypeSelected (some ["Violent Crime"]) exCrimeC7 = false ∧
    (∃ t ∈ ["Violent Crime"],
      (t = "Violent Crime" ∧ ∀ ex ∈ otherSpecificTypes,
        ¬ substrOccurs ex (jsOrStr exCrimeC7.properties.text_general_code "")) ∨
      substrOccurs t (jsOrStr exCrimeC7.properties.text_general_code "")) := by
  constructor
  · with_unfolding_all decide
  · refine ⟨"Violent Crime", by simp, Or.inr ?_⟩
    refine ⟨[], (" Theft from Vehicle" : String).data, ?_⟩
    with_unfolding_all decide

/-! ### Claim C6 -/

theorem mem_intRange {lo hi z : ℤ} : z ∈ intRange lo hi ↔ lo ≤ z ∧ z ≤ hi := by
  constructor
  · intro hz
    obtain ⟨i, hi', hEq⟩ := List.mem_map.mp hz
    have hi2 := List.mem_range.mp hi'
    omega
  · rintro ⟨h1, h2⟩
    exact List.mem_map.mpr ⟨(z - lo).toNat, List.mem_range.mpr (by omega), by omega⟩

/-- C6 (amended): for every positive grid size, every boundary whose
bounds exist (at least 3 extracted vertices) and every indexed point with
a valid two-element coordinate that is contained in the boundary polygon
*and lies inside the boundary's bounding box*, the point appears in the
candidate list of the spatial-grid bounding-box query.  (Without the
bounding-box condition the claim fails: `pointInPolygon`'s on-segment
tolerance accepts points slightly outside the bounding box, which the
query filters away — see the counterexample.) -/
theorem grid_prefilter_complete_in_bbox (features : List Crime) (crime : Crime)
    (g : ℚ) (hg : 0 < g) (c : Community) (b : Bounds)
    (hb : calculateCommunityBounds c = some b)
    (lon lat : ℚ) (rest : List ℚ) (cg : CrimeGeometry)
    (hcg : crime.geometry = some cg) (hcoords : cg.coordinates = some (lon :: lat :: rest))
    (hmem : crime ∈ features)
    (hpoly : pointInPolygon lat lon (getPolygonCoordinates c.geometry) = true)
    (hbb : isPointInBounds lat lon b = true) :
    crime ∈ getCrimesInCommunityBounds c (createSpatialIndex (some ⟨some features⟩) g) g := by
  have hineq : (b.minLat ≤ lat ∧ lat ≤ b.maxLat) ∧ b.minLon ≤ lon ∧ lon ≤ b.maxLon := by
    simpa [isPointInBounds, Bool.and_eq_true, decide_eq_true_eq, ge_iff_le,
      and_assoc] using hbb
  obtain ⟨⟨hA, hB⟩, hC, hD⟩ := hineq
  have hd1 : b.minLon / g ≤ lon / g := by gcongr
  have hd2 : lon / g ≤ b.maxLon / g := by gcongr
  have hd3 : b.minLat / g ≤ lat / g := by gcongr
  have hd4 : lat / g ≤ b.maxLat / g := by gcongr
  unfold getCrimesInCommunityBounds
  rw [hb]
  dsimp only
  rw [List.mem_flatMap]
  refine ⟨⌊lon / g⌋, mem_intRange.mpr ⟨Int.floor_le_floor hd1, Int.floor_le_floor hd2⟩, ?_⟩
  rw [List.mem_flatMap]
  refine ⟨⌊lat / g⌋, mem_intRange.mpr ⟨Int.floor_le_floor hd3, Int.floor_le_floor hd4⟩, ?_⟩
  rw [List.mem_filter]
  constructor
  · show crime ∈ createSpatialIndex (some ⟨some features⟩) g (⌊lon / g⌋, ⌊lat / g⌋)
    unfold createSpatialIndex
    rw [List.mem_filter]
    refine ⟨hmem, ?_⟩
    have hkey : crimeGridKey g crime = some (⌊lon / g⌋, ⌊lat / g⌋) := by
      unfold crimeGridKey
      rw [hcg]
      dsimp only
      rw [hcoords]
    rw [hkey]
    simp
  · rw [hcg]
    dsimp only
    rw [hcoords]
    exact hbb

/-- Counterexample to C6 as stated: a point within the on-segment
tolerance just above the square's top edge is contained per
`pointInPolygon` yet missing from the candidate list, because the
bounding-box refinement of the query rejects it. -/
theorem grid_prefilter_tolerance_counterexample :
    (0 : ℚ) < 1/100 ∧
    pointInPolygon (1/100 + 1/200000) (1/200)
      (getPolygonCoordinates exCommunitySq.geometry) = true ∧
    exCrimeC6.geometry = some ⟨some [1/200, 1/100 + 1/200000]⟩ ∧
    exCrimeC6 ∈ [exCrimeC6] ∧
    getCrimesInCommunityBounds exCommunitySq
      (createSpatialIndex (some ⟨some [exCrimeC6]⟩) (1/100)) (1/100) = [] := by
  refine ⟨by norm_num, by with_unfolding_all decide, rfl, by simp,
    by with_unfolding_all decide⟩

/-- Witness for C6's amended theorem: a point strictly inside the square
appears among the candidates. -/
theorem grid_prefilter_complete_in_bbox_witness :
    (0 : ℚ) < 1/100 ∧
    calculateCommunityBounds exCommunitySq = some ⟨0, 1/100, 0, 1/100⟩ ∧
    pointInPolygon (1/200) (1/200) (getPolygonCoordinates exCommunitySq.geometry) = true ∧
    isPointInBounds (1/200) (1/200) ⟨0, 1/100, 0, 1/100⟩ = true ∧
    exCrime "2025" (1/200) (1/200) ∈ getCrimesInCommunityBounds exCommunitySq
      (createSpatialIndex (some ⟨some [exCrime "2025" (1/200) (1/200)]⟩) (1/100)) (1/100) := by
  have hb' : calculateCommunityBounds exCommunitySq = some ⟨0, 1/100, 0, 1/100⟩ := by
    with_unfolding_all decide
  have hpoly' : pointInPolygon (1/200) (1/200)
      (getPolygonCoordinates exCommunitySq.geometry) = true := by
    with_unfolding_all decide
  have hbb' : isPointInBounds (1/200) (1/200) ⟨0, 1/100, 0, 1/100⟩ = true := by
    with_unfolding_all decide
  exact ⟨by norm_num, hb', hpoly', hbb',
    grid_prefilter_complete_in_bbox [exCrime "2025" (1/200) (1/200)]
      (exCrime "2025" (1/200) (1/200)) (1/100) (by norm_num) exCommunitySq
      ⟨0, 1/100, 0, 1/100⟩ hb' (1/200) (1/200) [] ⟨some [1/200, 1/200]⟩ rfl rfl
      (by simp) hpoly' hbb'⟩

/-! ### Claim C8 -/

theorem onSegPair_swap (lat lon : ℚ) (a b : ℚ × ℚ) :
    onSegPair lat lon (b, a) = onSegPair lat lon (a, b) := by
  unfold onSegPair isPointOnLineSegment
  dsimp only
  have habs : |(lat - b.1) * (a.2 - b.2) - (lon - b.2) * (a.1 - b.1)| =
      |(lat - a.1) * (b.2 - a.2) - (lon - a.2) * (b.1 - a.1)| := by
    rw [show (lat - b.1) * (a.2 - b.2) - (lon - b.2) * (a.1 - b.1) =
        -((lat - a.1) * (b.2 - a.2) - (lon - a.2) * (b.1 - a.1)) from by ring, abs_neg]
  rw [min_comm b.1 a.1, max_comm b.1 a.1, min_comm b.2 a.2, max_comm b.2 a.2, habs]

theorem rayCrossPair_swap (lat lon : ℚ) (a b : ℚ × ℚ) :
    rayCrossPair lat lon (b, a) = rayCrossPair lat lon (a, b) := by
  unfold rayCrossPair
  dsimp only
  cases h1 : decide (a.1 > lat) <;> cases h2 : decide (b.1 > lat)
  · rfl
  · have ha : ¬(a.1 > lat) := of_decide_eq_false h1
    have hb : b.1 > lat := of_decide_eq_true h2
    have hAB : a.1 ≠ b.1 := by
      intro hEq
      rw [hEq] at ha
      exact ha hb
    have h1' : a.1 - b.1 ≠ 0 := sub_ne_zero.mpr hAB
    have h2' : b.1 - a.1 ≠ 0 := sub_ne_zero.mpr (Ne.symm hAB)
    have hE : (a.2 - b.2) * (lat - b.1) / (a.1 - b.1) + b.2 =
        (b.2 - a.2) * (lat - a.1) / (b.1 - a.1) + a.2 := by
      field_simp
      ring
    rw [hE]
    rfl
  · have ha : a.1 > lat := of_decide_eq_true h1
    have hb : ¬(b.1 > lat) := of_decide_eq_false h2
    have hAB : a.1 ≠ b.1 := by
      intro hEq
      rw [hEq] at ha
      exact hb ha
    have h1' : a.1 - b.1 ≠ 0 := sub_ne_zero.mpr hAB
    have h2' : b.1 - a.1 ≠ 0 := sub_ne_zero.mpr (Ne.symm hAB)
    have hE : (a.2 - b.2) * (lat - b.1) / (a.1 - b.1) + b.2 =
        (b.2 - a.2) * (lat - a.1) / (b.1 - a.1) + a.2 := by
      field_simp
      ring
    rw [hE]
    rfl
  · rfl

theorem pipGo_char (lat lon : ℚ) : ∀ (pairs : List ((ℚ × ℚ) × (ℚ × ℚ))) (inside : Bool),
    pipGo lat lon pairs inside =
      (pairs.any (onSegPair lat lon) ||
        (inside ^^ ((pairs.countP (rayCrossPair lat lon)) % 2 == 1))) := by
  intro pairs
  induction pairs with
  | nil => intro inside; simp [pipGo]
  | cons q rest ih =>
    intro inside
    simp only [pipGo]
    by_cases hq : onSegPair lat lon q = true
    · rw [if_pos hq]
      simp [List.any_cons, hq]
    · rw [if_neg hq]
      rw [ih]
      have hq' : onSegPair lat lon q = false := by simpa using hq
      rw [List.any_cons, hq', List.countP_cons]
      simp only [Bool.false_or]
      by_cases hc : rayCrossPair lat lon q = true
      · rw [hc]
        rw [show (if true = true then (1 : ℕ) else 0) = 1 from rfl]
        have hmod : ((rest.countP (rayCrossPair lat lon) + 1) % 2 == 1) =
            !((rest.countP (rayCrossPair lat lon)) % 2 == 1) := by
          rcases Nat.mod_two_eq_zero_or_one (rest.countP (rayCrossPair lat lon)) with h | h <;>
            simp [Nat.add_mod, h]
        rw [hmod]
        congr 1
        cases inside <;> cases hb : ((rest.countP (rayCrossPair lat lon)) % 2 == 1) <;> rfl
      · have hc' : rayCrossPair lat lon q = false := by simpa using hc
        rw [hc', if_neg (by simp)]
        rfl

theorem zip_reverse_eq {α β : Type} : ∀ (u : List α) (w : List β), u.length = w.length →
    (u.reverse).zip (w.reverse) = (u.zip w).reverse := by
  intro u
  induction u with
  | nil =>
    intro w h
    cases w with
    | nil => rfl
    | cons y w' => simp at h
  | cons x u' ih =>
    intro w h
    cases w with
    | nil => simp at h
    | cons y w' =>
      simp only [List.length_cons] at h
      have h' : u'.length = w'.length := by omega
      simp only [List.reverse_cons, List.zip_cons_cons]
      rw [List.zip_append (by simp [h']), ih w' h']
      simp

theorem edgePairs_eq_of (X : List (ℚ × ℚ)) (last : ℚ × ℚ) (h : X.getLast? = some last) :
    edgePairs X = X.zip (last :: X.dropLast) := by
  unfold edgePairs
  rw [h]

theorem edgePairs_reverse_perm (l : List (ℚ × ℚ)) :
    (edgePairs l.reverse).Perm ((edgePairs l).map Prod.swap) := by
  cases l with
  | nil => simp [edgePairs]
  | cons a t =>
    rcases t.eq_nil_or_concat' with rfl | ⟨s, z, rfl⟩
    · simp [edgePairs]
    · have hL : (a :: (s ++ [z])).getLast? = some z := by
        rw [show a :: (s ++ [z]) = (a :: s) ++ [z] from rfl]
        exact List.getLast?_concat _
      have hRL : (a :: (s ++ [z])).reverse = (z :: s.reverse) ++ [a] := by simp
      have hL2 : ((a :: (s ++ [z])).reverse).getLast? = some a := by
        rw [hRL]
        exact List.getLast?_concat _
      have hD : (a :: (s ++ [z])).dropLast = a :: s := by
        rw [show a :: (s ++ [z]) = (a :: s) ++ [z] from rfl]
        exact List.dropLast_concat
      have hD2 : ((a :: (s ++ [z])).reverse).dropLast = z :: s.reverse := by
        rw [hRL]
        exact List.dropLast_concat
      rw [edgePairs_eq_of _ _ hL2, hD2, hRL, edgePairs_eq_of _ _ hL, hD, List.zip_swap]
      have hzz : (s.reverse ++ [a]).zip (z :: s.reverse) = ((a :: s).zip (s ++ [z])).reverse := by
        rw [show s.reverse ++ [a] = (a :: s).reverse from by simp,
            show z :: s.reverse = (s ++ [z]).reverse from by simp]
        exact zip_reverse_eq _ _ (by simp)
      rw [show ((z :: s.reverse) ++ [a]).zip (a :: z :: s.reverse) =
          (z, a) :: (s.reverse ++ [a]).zip (z :: s.reverse) from rfl]
      rw [hzz]
      rw [show (z :: (a :: s)).zip (a :: (s ++ [z])) = (z, a) :: (a :: s).zip (s ++ [z]) from rfl]
      exact List.Perm.cons _ (List.reverse_perm _)

theorem perm_any {α : Type} {l₁ l₂ : List α} (h : l₁.Perm l₂) (p : α → Bool) :
    l₁.any p = l₂.any p := by
  cases ha : l₁.any p
  · cases hb : l₂.any p
    · rfl
    · obtain ⟨x, hx, hpx⟩ := List.any_eq_true.mp hb
      have hcontra : l₁.any p = true := List.any_eq_true.mpr ⟨x, h.mem_iff.mpr hx, hpx⟩
      rw [ha] at hcontra
      cases hcontra
  · obtain ⟨x, hx, hpx⟩ := List.any_eq_true.mp ha
    exact (List.any_eq_true.mpr ⟨x, h.mem_iff.mp hx, hpx⟩).symm

/-- C8: `pointInPolygon` returns the same containment verdict for a vertex
ring and its reversal — clockwise and counter-clockwise windings agree.
Both the boundary-tolerance early exit and the ray-crossing parity are
invariant: the edge set of the reversed ring is the original edge set with
the endpoints of each edge swapped, each per-edge test is symmetric in the
endpoints, and the even-odd parity does not depend on edge order. -/
theorem pointInPolygon_reverse (lat lon : ℚ) (polygon : List (ℚ × ℚ)) :
    pointInPolygon lat lon polygon.reverse = pointInPolygon lat lon polygon := by
  unfold pointInPolygon
  rw [List.length_reverse]
  by_cases hlen : polygon.length < 3
  · rw [if_pos hlen, if_pos hlen]
  · rw [if_neg hlen, if_neg hlen, pipGo_char, pipGo_char]
    have hperm := edgePairs_reverse_perm polygon
    have hswapfun : (onSegPair lat lon ∘ Prod.swap) = onSegPair lat lon := by
      funext pr
      cases pr with
      | mk x y => exact onSegPair_swap lat lon x y
    have hany : (edgePairs polygon.reverse).any (onSegPair lat lon) =
        (edgePairs polygon).any (onSegPair lat lon) := by
      rw [perm_any hperm, List.any_map, hswapfun]
    have hcount : (edgePairs polygon.reverse).countP (rayCrossPair lat lon) =
        (edgePairs polygon).countP (rayCrossPair lat lon) := by
      rw [hperm.countP_eq, List.countP_map]
      congr 1
      funext pr
      cases pr with
      | mk x y => exact rayCrossPair_swap lat lon x y
    rw [hany, hcount]
